import Mathlib

/-!
Shallow embedding of the LISA batch inference pipeline (`chat_do_all.py`):
pair discovery, the prompt registry, the backbone preprocessing transform,
mask postprocessing, artifact naming, and the per-sample processing loop.
Each definition translates the corresponding piece of the Python source;
theorems about the spec's claims follow the definitions.
-/

namespace LISA

/-- Python `str.replace` on character lists, fuel-driven so that it is
structurally recursive and kernel-evaluable.  One unit of fuel is spent per
step; each step consumes at least one character when the pattern is
non-empty, so fuel equal to the input length suffices. -/
def replaceAllAux (pat rep : List Char) : Nat → List Char → List Char
  | 0, s => s
  | _ + 1, [] => []
  | fuel + 1, c :: cs =>
    if pat.isPrefixOf (c :: cs) then
      rep ++ replaceAllAux pat rep fuel ((c :: cs).drop pat.length)
    else
      c :: replaceAllAux pat rep fuel cs

/-- Python `s.replace(pat, rep)` for a non-empty pattern: replace every
non-overlapping occurrence of `pat` in `s`, scanning left to right. -/
def replaceAll (pat rep s : List Char) : List Char :=
  replaceAllAux pat rep s.length s

/-- Python `s.replace(old, new)` lifted to `String`. -/
def pyReplace (s old new : String) : String :=
  String.mk (replaceAll old.data new.data s.data)

/-- Whether `pat` occurs as a contiguous sublist of `s`. -/
def containsSub (pat : List Char) : List Char → Bool
  | [] => pat.isEmpty
  | c :: cs => pat.isPrefixOf (c :: cs) || containsSub pat cs

/-- No occurrence of `pat` begins at any of the first `a.length` positions
of `a ++ rest`. -/
def noStartIn (pat a rest : List Char) : Bool :=
  (List.range a.length).all fun i => !(pat.isPrefixOf ((a ++ rest).drop i))


/-- Python `s.split(sep)` for a single-character separator: split at every
occurrence, keeping empty fields (so the result is never empty). -/
def splitOnChar (sep : Char) : List Char → List (List Char)
  | [] => [[]]
  | c :: cs =>
    if c = sep then [] :: splitOnChar sep cs
    else
      match splitOnChar sep cs with
      | [] => [[c]]
      | g :: gs => (c :: g) :: gs

/-- The fixed instruction text `PROMPT1` (detailed pedestrian rules). -/
def PROMPT1 : String :=
  "\n- People who are walking or riding kick scooters (including electric kick scooters), segways, skateboards, etc. are labeled as pedestrians.\n" ++
  "- People inside other vehicles are not labeled, except for people standing on the top of cars/trucks or standing on flatbeds of trucks.\n" ++
  "- A person riding a bicycle is not labeled as a pedestrian, but labeled as a cyclist instead.\n" ++
  "- Mannequins, statues, billboards, posters, or reflections of people are not labeled.\n" ++
  "- Include small child or carrying small items (smaller than 2m in size such as umbrella or small handbag or a sign).\n" ++
  "- Include small mobility devices like a kick scooter (including electric kick scooter), a segway, a skateboard, etc\n" ++
  "- If the pedestrian is carrying an object larger than 2m, or pushing a bike or shopping cart, the bounding box does not include the additional object.\n" ++
  "- If the pedestrian is pushing a stroller with a child in it, separate bounding boxes are created for the pedestrian and the child. The stroller is not included in the child bounding box.\n" ++
  "- If pedestrians overlap each other, they are labeled as separate objects. If they overlap then the bounding boxes can overlap as well.\n"

/-- The fixed instruction text `PROMPT2` (numbered pedestrian rules). -/
def PROMPT2 : String :=
  "\nOutput segmentation masks for pedestrians with:\n" ++
  "1. Label visible pedestrians.\n" ++
  "2. Do not label if pedestrian identity is unclear.\n" ++
  "3. Label people walking or on scooters, segways, skateboards.\n" ++
  "4. Do not label people inside vehicles, unless on top/flatbeds.\n" ++
  "5. Cyclists are not labeled as pedestrians.\n" ++
  "6. Ignore mannequins, posters, reflections, etc.\n" ++
  "7. Use one box if pedestrian carries small items (<2m) or a child.\n" ++
  "8. Label scooter/segway/skateboard riders with one box.\n" ++
  "9. Exclude large items (>2m) or pushed carts/bikes from box.\n" ++
  "10. Use separate boxes for pedestrian and child in stroller; exclude stroller.\n" ++
  "11. Overlapping pedestrians get separate (possibly overlapping) boxes.\n"

/-- The fixed instruction text `PROMPT3`. -/
def PROMPT3 : String := "\npedestrian\n"

/-- The fixed instruction text `PROMPT4` (empty instruction). -/
def PROMPT4 : String := "\n"

/-- The prompt registry `Prompts` of the source: integer key to fixed
instruction text. -/
def Prompts : List (ℤ × String) :=
  [(1, PROMPT1), (2, PROMPT2), (3, PROMPT3), (4, PROMPT4)]

/-- Python dict access `Prompts[args.prompt_number]`: `some` text, or
`none` where Python raises a `KeyError`. -/
def promptLookup (k : ℤ) : Option String := Prompts.lookup k

/-- A 3-channel numeric image tensor in (channel, height, width) layout;
values are rationals standing for the float pixel values. -/
structure Tensor3 where
  height : Nat
  width : Nat
  data : Fin 3 → Nat → Nat → ℚ

/-- The fixed per-channel pixel mean `[123.675, 116.28, 103.53]`. -/
def pixelMean : Fin 3 → ℚ
  | 0 => 123675 / 1000
  | 1 => 11628 / 100
  | 2 => 10353 / 100

/-- The fixed per-channel pixel standard deviation `[58.395, 57.12, 57.375]`. -/
def pixelStd : Fin 3 → ℚ
  | 0 => 58395 / 1000
  | 1 => 5712 / 100
  | 2 => 57375 / 1000

/-- The normalization step of `preprocess`: `x = (x - pixel_mean) / pixel_std`,
per channel, broadcast over the spatial dimensions. -/
def normalizeT (x : Tensor3) : Tensor3 :=
  { x with data := fun c i j => (x.data c i j - pixelMean c) / pixelStd c }

/-- The call `F.pad(x, (0, padw, 0, padh))` in constant (zero) mode: extend
the right edge by `padw` columns and the bottom edge by `padh` rows.  Per
torch semantics a negative amount removes elements from that edge instead
(cropping), so the new extent is the old one plus the signed amount, every
retained position reads the original value, and positions beyond the
original extent read zero. -/
def padT (x : Tensor3) (padh padw : ℤ) : Tensor3 :=
  { height := ((x.height : ℤ) + padh).toNat
    width := ((x.width : ℤ) + padw).toNat
    data := fun c i j =>
      if i < x.height ∧ j < x.width then x.data c i j else 0 }

/-- The backbone-path transform `preprocess` of the source: normalize the
pixel values per channel, then pad bottom/right to an `imgSize`-square with
`padh = img_size - h` and `padw = img_size - w`. -/
def preprocess (x : Tensor3) (imgSize : Nat) : Tensor3 :=
  let xn := normalizeT x
  padT xn ((imgSize : ℤ) - (xn.height : ℤ)) ((imgSize : ℤ) - (xn.width : ℤ))

/-- A predicted mask for one instance as the model returns it: a leading
instance dimension `dim0` (the loop skips a mask with `pred_mask.shape[0]`
equal to zero) and the 2-D float mask `plane` given by the `[0]` slice. -/
structure PredMask where
  dim0 : Nat
  height : Nat
  width : Nat
  plane : Nat → Nat → ℚ

/-- The binarization `pred_mask = pred_mask > 0`. -/
def binMask (m : PredMask) : Nat → Nat → Bool := fun i j =>
  decide (0 < m.plane i j)

/-- `pred_mask.astype(np.uint8) * 255`: the grayscale raster that is saved
as the binary mask artifact. -/
def grayMask (m : PredMask) : Nat → Nat → Nat := fun i j =>
  (if binMask m i j then 1 else 0) * 255

/-- An RGB image with 8-bit pixels; channel index 0 is red in the RGB
layout the pipeline works in after `cv2.cvtColor(..., COLOR_BGR2RGB)`. -/
structure ImageRGB where
  height : Nat
  width : Nat
  pix : Nat → Nat → Fin 3 → Nat

/-- The fixed highlight color `np.array([255, 0, 0])`. -/
def redColor : Fin 3 → Nat
  | 0 => 255
  | _ => 0

/-- NumPy cast of a nonnegative float to `uint8` on assignment into a
`uint8` array: truncation toward zero, i.e. the floor for the nonnegative
values arising here. -/
def toU8 (q : ℚ) : Nat := (⌊q⌋).toNat

/-- The float array
`image_np * 0.5 + pred_mask[:, :, None].astype(np.uint8) * np.array([255, 0, 0]) * 0.5`
of the source, evaluated at one pixel and channel. -/
def blendValue (img : ImageRGB) (mask : Nat → Nat → Bool)
    (i j : Nat) (c : Fin 3) : ℚ :=
  (img.pix i j c : ℚ) * (1 / 2) +
    ((if mask i j then (1 : ℚ) else 0) * (redColor c : ℚ)) * (1 / 2)

/-- The overlay computation of the source:
`save_img = image_np.copy()` followed by
`save_img[pred_mask] = (image_np * 0.5 + pred_mask[:, :, None].astype(np.uint8) * np.array([255, 0, 0]) * 0.5)[pred_mask]`.
At mask-true pixels the blended float value is cast back to `uint8` by the
assignment; every other pixel keeps the copied original value. -/
def overlayImage (img : ImageRGB) (mask : Nat → Nat → Bool) : ImageRGB :=
  { img with pix := fun i j c =>
      if mask i j then toU8 (blendValue img mask i j c) else img.pix i j c }

/-- `"/".join(lbl_path.split("/")[:-1])`: the label path's parent directory. -/
def parentDir (lblPath : String) : String :=
  String.mk (List.intercalate ['/'] ((splitOnChar '/' lblPath.data).dropLast))

/-- `lbl_path.split("/")[-1].split(".")[0]`: the label filename cut at its
first dot. -/
def baseName (lblPath : String) : String :=
  String.mk ((splitOnChar '.'
    (((splitOnChar '/' lblPath.data).getLast?).getD [])).headD [])

/-- The binary-mask artifact path formatted by the source: parent
directory, slash, base name, the literal `_LISA_mask_`, the index, the
literal `_prompt`, the prompt id, and the `.png` extension. -/
def maskSavePath (lblPath : String) (i : Nat) (promptNumber : ℤ) : String :=
  parentDir lblPath ++ "/" ++ baseName lblPath ++ "_LISA_mask_" ++
    toString i ++ "_prompt" ++ toString promptNumber ++ ".png"

/-- The overlay artifact path formatted by the source: parent directory,
slash, base name, the literal `_LISA_masked_img_`, the index, the literal
`_prompt`, the prompt id, and the `.png` extension. -/
def maskedImgSavePath (lblPath : String) (i : Nat) (promptNumber : ℤ) : String :=
  parentDir lblPath ++ "/" ++ baseName lblPath ++ "_LISA_masked_img_" ++
    toString i ++ "_prompt" ++ toString promptNumber ++ ".png"

/-- The artifact-writing loop of `main`: `for i, pred_mask in
enumerate(pred_masks)` with the running index starting at `start`; a mask
whose leading dimension is zero is skipped (`continue`) and any other mask
writes the binary mask raster and then the overlay raster. -/
def writeLoop (lblPath : String) (promptNumber : ℤ) :
    Nat → List PredMask → List String
  | _, [] => []
  | i, m :: ms =>
    (if m.dim0 = 0 then [] else
      [maskSavePath lblPath i promptNumber,
        maskedImgSavePath lblPath i promptNumber]) ++
      writeLoop lblPath promptNumber (i + 1) ms

/-- All artifact paths written for one sample, in write order. -/
def writtenArtifacts (lblPath : String) (promptNumber : ℤ)
    (masks : List PredMask) : List String :=
  writeLoop lblPath promptNumber 0 masks

/-- `image_clip_path.replace("/images/", "/labels/")`: the label clip path
of `collect_pairs`. -/
def labelClipPath (imageClipPath : String) : String :=
  pyReplace imageClipPath "/images/" "/labels/"

/-- `frame_file.replace(".jpeg", ".png")`: the expected label filename of
`collect_pairs`. -/
def labelFileName (frameFile : String) : String :=
  pyReplace frameFile ".jpeg" ".png"

/-- The innermost loop of `collect_pairs`: over the files of a matched
timestamp directory, append the pair
`(image_ts_path/f, label_ts_path/labelFileName f)` exactly when the
computed label file exists on the filesystem. -/
def framePairs (fsExists : String → Bool) (imageTsPath labelTsPath : String)
    (files : List String) : List (String × String) :=
  files.flatMap fun f =>
    if fsExists (labelTsPath ++ "/" ++ labelFileName f) then
      [(imageTsPath ++ "/" ++ f, labelTsPath ++ "/" ++ labelFileName f)]
    else []

/-- Outcome of one iteration of the main loop for one discovered pair. -/
inductive SampleOutcome where
  | skippedMissing (logLine : String)
  | processed (written : List String)
deriving DecidableEq

/-- One iteration of the `for img_path, lbl_path in pairs` loop: when the
image path no longer exists, the iteration prints `File not found in ...`
and moves on via `continue`; otherwise the sample is processed and its
artifacts written. -/
def processPair (fsExists : String → Bool) (masksOf : String → List PredMask)
    (promptNumber : ℤ) (p : String × String) : SampleOutcome :=
  if fsExists p.1 then
    .processed (writtenArtifacts p.2 promptNumber (masksOf p.1))
  else
    .skippedMissing ("File not found in " ++ p.1)

/-- The main loop over all discovered pairs, in order: every pair yields an
outcome and no iteration aborts the run. -/
def runAll (fsExists : String → Bool) (masksOf : String → List PredMask)
    (promptNumber : ℤ) (pairs : List (String × String)) :
    List ((String × String) × SampleOutcome) :=
  pairs.map fun p => (p, processPair fsExists masksOf promptNumber p)

/-- Modelled from the spec: the image-placeholder token imported from
`utils.utils`, a module absent from the source tree; the spec names it only
as the image placeholder, embedded here as the llava literal. -/
def DEFAULT_IMAGE_TOKEN : String := "<image>"

/-- Modelled from the spec: the wrapper start marker imported from
`utils.utils` (absent from the source tree). -/
def DEFAULT_IM_START_TOKEN : String := "<im_start>"

/-- Modelled from the spec: the wrapper end marker imported from
`utils.utils` (absent from the source tree). -/
def DEFAULT_IM_END_TOKEN : String := "<im_end>"

/-- The user-turn construction in `main`:
`prompt = DEFAULT_IMAGE_TOKEN + "\n" + prompt`, then when
`args.use_mm_start_end` is set,
`prompt = prompt.replace(DEFAULT_IMAGE_TOKEN, DEFAULT_IM_START_TOKEN + DEFAULT_IMAGE_TOKEN + DEFAULT_IM_END_TOKEN)`. -/
def buildUserTurn (instruction : String) (useMmStartEnd : Bool) : String :=
  let p := DEFAULT_IMAGE_TOKEN ++ "\n" ++ instruction
  if useMmStartEnd then
    pyReplace p DEFAULT_IMAGE_TOKEN
      (DEFAULT_IM_START_TOKEN ++ DEFAULT_IMAGE_TOKEN ++ DEFAULT_IM_END_TOKEN)
  else p

/-- Written from the spec's words, for comparison with `baseName`:
`label_base_name` is "the label filename without its extension", the name
cut at its last dot (unchanged when the name has no dot). -/
def specStripExt (name : List Char) : List Char :=
  let parts := splitOnChar '.' name
  if parts.length ≤ 1 then name else List.intercalate ['.'] parts.dropLast

/-- Written from the spec's words, for comparison with `labelFileName`:
"the filename with extension `.jpeg` replaced by `.png`" — substitution at
the extension (a `.jpeg` suffix) only. -/
def specLabelFileName (frameFile : String) : String :=
  if ".jpeg".data.isSuffixOf frameFile.data then
    String.mk (frameFile.data.take (frameFile.data.length - 5) ++ ".png".data)
  else frameFile

/-- Written from the amended claim's words, for comparison with the write
loop: each mask contributes, at its original zero-based position in the
result list, nothing when empty and otherwise exactly the two artifact
paths for that index; skipped empty entries keep their index, so later
masks are not renumbered. -/
def specArtifacts (lblPath : String) (promptNumber : ℤ)
    (masks : List PredMask) : List String :=
  masks.enum.flatMap fun im =>
    if im.2.dim0 = 0 then []
    else [maskSavePath lblPath im.1 promptNumber,
      maskedImgSavePath lblPath im.1 promptNumber]

/-- A concrete 2 by 2 input image for the `preprocess` witness. -/
def exTensorC2 : Tensor3 := ⟨2, 2, fun _ _ _ => 100⟩

theorem replaceAllAux_eq_replaceAll (pat rep : List Char) (hpat : pat ≠ []) :
    ∀ fuel s, s.length ≤ fuel →
      replaceAllAux pat rep fuel s = replaceAll pat rep s := by
  intro fuel
  induction fuel using Nat.strong_induction_on with
  | _ fuel ih =>
    intro s hs
    cases s with
    | nil => cases fuel <;> rfl
    | cons c cs =>
      cases fuel with
      | zero => simp at hs
      | succ f =>
        simp only [List.length_cons, Nat.succ_le_succ_iff] at hs
        show replaceAllAux pat rep (f + 1) (c :: cs) =
          replaceAllAux pat rep (cs.length + 1) (c :: cs)
        by_cases hp : pat.isPrefixOf (c :: cs)
        · have hplen : 1 ≤ pat.length := List.length_pos.mpr hpat
          have hdlen : ((c :: cs).drop pat.length).length ≤ cs.length := by
            simp only [List.length_drop, List.length_cons]
            omega
          simp only [replaceAllAux, if_pos hp]
          rw [ih f (Nat.lt_succ_self f) _ (le_trans hdlen hs),
            ih cs.length (Nat.lt_succ_of_le hs) _ hdlen]
        · simp only [replaceAllAux, if_neg hp]
          rw [ih f (Nat.lt_succ_self f) cs hs,
            ih cs.length (Nat.lt_succ_of_le hs) cs le_rfl]

theorem replaceAll_cons (pat rep : List Char) (hpat : pat ≠ [])
    (c : Char) (cs : List Char) :
    replaceAll pat rep (c :: cs) =
      if pat.isPrefixOf (c :: cs) then
        rep ++ replaceAll pat rep ((c :: cs).drop pat.length)
      else
        c :: replaceAll pat rep cs := by
  have hdlen : ((c :: cs).drop pat.length).length ≤ cs.length := by
    have hplen : 1 ≤ pat.length := List.length_pos.mpr hpat
    simp only [List.length_drop, List.length_cons]
    omega
  show replaceAllAux pat rep (cs.length + 1) (c :: cs) = _
  by_cases hp : pat.isPrefixOf (c :: cs)
  · simp only [replaceAllAux, if_pos hp]
    rw [replaceAllAux_eq_replaceAll pat rep hpat cs.length _ hdlen]
  · simp only [replaceAllAux, if_neg hp]
    rw [replaceAllAux_eq_replaceAll pat rep hpat cs.length cs le_rfl]

theorem replaceAll_of_not_contains (pat rep : List Char) (hpat : pat ≠ []) :
    ∀ s, containsSub pat s = false → replaceAll pat rep s = s := by
  intro s
  induction s with
  | nil => intro _; rfl
  | cons c cs ih =>
    intro h
    simp only [containsSub, Bool.or_eq_false_iff] at h
    rw [replaceAll_cons pat rep hpat, if_neg (by simp [h.1]), ih h.2]

theorem replaceAll_pat_append (pat rep : List Char) (hpat : pat ≠ [])
    (rest : List Char) :
    replaceAll pat rep (pat ++ rest) = rep ++ replaceAll pat rep rest := by
  cases pat with
  | nil => exact absurd rfl hpat
  | cons p ps =>
    have hpre : (p :: ps).isPrefixOf (p :: (ps ++ rest)) = true := by
      rw [ List.isPrefixOf_iff_prefix, ← List.cons_append]
      exact List.prefix_append (p :: ps) rest
    have hd : (p :: (ps ++ rest)).drop (p :: ps).length = rest := by
      rw [← List.cons_append, List.drop_left]
    rw [List.cons_append, replaceAll_cons _ rep hpat, if_pos hpre, hd]

theorem replaceAll_append_of_noStartIn (pat rep : List Char) (hpat : pat ≠ []) :
    ∀ a rest, noStartIn pat a rest = true →
      replaceAll pat rep (a ++ rest) = a ++ replaceAll pat rep rest := by
  intro a
  induction a with
  | nil => intro rest _; rfl
  | cons c as ih =>
    intro rest h
    rw [noStartIn, List.all_eq_true] at h
    have h0 : pat.isPrefixOf ((c :: as) ++ rest) = false := by
      have := h 0 (by simp [List.mem_range])
      simpa using this
    have hrec : noStartIn pat as rest = true := by
      rw [noStartIn, List.all_eq_true]
      intro i hi
      have hi' : i + 1 ∈ List.range (c :: as).length := by
        simp only [List.mem_range, List.length_cons]
        simp only [List.mem_range] at hi
        omega
      have := h (i + 1) hi'
      simpa using this
    rw [List.cons_append] at h0 ⊢
    rw [replaceAll_cons pat rep hpat, if_neg (by simp [h0]), ih rest hrec,
      List.cons_append]

/-- C2: for an image whose resized height and width are both at most the
backbone target size, `preprocess` yields an exactly target-square tensor
whose top-left region is the per-channel normalized image
`(x - mean) / std` and whose remaining (padded) region is zero. -/
theorem preprocess_pads_to_square (x : Tensor3) (imgSize : Nat)
    (hh : x.height ≤ imgSize) (hw : x.width ≤ imgSize) :
    (preprocess x imgSize).height = imgSize ∧
    (preprocess x imgSize).width = imgSize ∧
    (∀ c i j, i < x.height → j < x.width →
      (preprocess x imgSize).data c i j =
        (x.data c i j - pixelMean c) / pixelStd c) ∧
    (∀ c i j, ¬(i < x.height ∧ j < x.width) →
      (preprocess x imgSize).data c i j = 0) := by
  refine ⟨?_, ?_, ?_, ?_⟩
  · simp only [preprocess, padT, normalizeT]
    omega
  · simp only [preprocess, padT, normalizeT]
    omega
  · intro c i j hi hj
    simp [preprocess, padT, normalizeT, hi, hj]
  · intro c i j h
    simp only [preprocess, padT, normalizeT]
    rw [if_neg h]

theorem preprocess_pads_to_square_witness :
    exTensorC2.height ≤ 1024 ∧ exTensorC2.width ≤ 1024 ∧
    ((preprocess exTensorC2 1024).height = 1024 ∧
     (preprocess exTensorC2 1024).width = 1024 ∧
     (∀ c i j, i < exTensorC2.height → j < exTensorC2.width →
       (preprocess exTensorC2 1024).data c i j =
         (exTensorC2.data c i j - pixelMean c) / pixelStd c) ∧
     (∀ c i j, ¬(i < exTensorC2.height ∧ j < exTensorC2.width) →
       (preprocess exTensorC2 1024).data c i j = 0)) :=
  ⟨by decide, by decide,
    preprocess_pads_to_square exTensorC2 1024 (by decide) (by decide)⟩

/-- C3: resolving the instruction text for a prompt id that is not one of
the registry keys 1, 2, 3, 4 fails (the Python dict access raises at the
point of use; the embedding returns `none`). -/
theorem promptLookup_unknown_key_fails (k : ℤ)
    (h1 : k ≠ 1) (h2 : k ≠ 2) (h3 : k ≠ 3) (h4 : k ≠ 4) :
    promptLookup k = none := by
  have e1 : (k == (1 : ℤ)) = false := by simp [h1]
  have e2 : (k == (2 : ℤ)) = false := by simp [h2]
  have e3 : (k == (3 : ℤ)) = false := by simp [h3]
  have e4 : (k == (4 : ℤ)) = false := by simp [h4]
  simp [promptLookup, Prompts, List.lookup, e1, e2, e3, e4]

theorem promptLookup_unknown_key_fails_witness :
    (7 : ℤ) ≠ 1 ∧ (7 : ℤ) ≠ 2 ∧ (7 : ℤ) ≠ 3 ∧ (7 : ℤ) ≠ 4 ∧
    promptLookup 7 = none :=
  ⟨by decide, by decide, by decide, by decide,
    promptLookup_unknown_key_fails 7 (by decide) (by decide) (by decide)
      (by decide)⟩

/-- C5: each pixel of the saved binary mask raster is 255 exactly where
the predicted mask value is strictly positive and 0 everywhere else, so
the raster contains only the values 0 and 255. -/
theorem grayMask_binary (m : PredMask) (i j : Nat) :
    (grayMask m i j = 255 ∨ grayMask m i j = 0) ∧
    (grayMask m i j = 255 ↔ 0 < m.plane i j) ∧
    (grayMask m i j = 0 ↔ ¬0 < m.plane i j) := by
  by_cases h : 0 < m.plane i j <;> simp [grayMask, binMask, h]

/-- C6: the overlay equals the original image at every pixel where the
binarized mask is false, and at every mask-true pixel each channel holds
the 50/50 blend of the original value and pure red, floored back to the
8-bit grid; no pixel outside the mask is modified. -/
theorem overlayImage_blend (img : ImageRGB) (mask : Nat → Nat → Bool)
    (i j : Nat) (c : Fin 3) :
    (mask i j = false → (overlayImage img mask).pix i j c = img.pix i j c) ∧
    (mask i j = true → (overlayImage img mask).pix i j c =
      (img.pix i j c + redColor c) / 2) := by
  constructor
  · intro h
    simp [overlayImage, h]
  · intro h
    simp only [overlayImage, h, if_true]
    show toU8 (blendValue img mask i j c) = _
    have h1 : blendValue img mask i j c =
        ((img.pix i j c + redColor c : ℕ) : ℚ) / 2 := by
      simp only [blendValue, h, if_true]
      push_cast
      ring
    rw [toU8, h1, Int.floor_toNat, Nat.floor_div_ofNat, Nat.floor_natCast]

/-- C4, claim as stated refuted: on an input taller than the target the
transform does not fail at the point of use — it produces a full
target-square output, the rows beyond the target having been cropped away
by the negative bottom pad. -/
theorem preprocess_negative_pad_counterexample :
    1024 < (Tensor3.mk 1025 1024 fun _ _ _ => 50).height ∧
    (preprocess (Tensor3.mk 1025 1024 fun _ _ _ => 50) 1024).height = 1024 ∧
    (preprocess (Tensor3.mk 1025 1024 fun _ _ _ => 50) 1024).width = 1024 := by
  refine ⟨by decide, ?_, ?_⟩ <;> · simp only [preprocess, padT, normalizeT]; decide

/-- C4 (amended): when the resized height or width exceeds the target, the
transform still produces an exact target-square — the negative pad amount
crops the bottom/right edge per torch `F.pad` constant-mode semantics —
and every retained position holds the normalized original value, content
beyond the target extent being discarded rather than kept. -/
theorem preprocess_crops_on_negative_pad (x : Tensor3) (imgSize : Nat)
    (_hgt : imgSize < x.height ∨ imgSize < x.width) :
    (preprocess x imgSize).height = imgSize ∧
    (preprocess x imgSize).width = imgSize ∧
    (∀ c i j, i < imgSize → j < imgSize →
      (preprocess x imgSize).data c i j =
        if i < x.height ∧ j < x.width then
          (x.data c i j - pixelMean c) / pixelStd c
        else 0) := by
  refine ⟨?_, ?_, ?_⟩
  · simp only [preprocess, padT, normalizeT]
    omega
  · simp only [preprocess, padT, normalizeT]
    omega
  · intro c i j _ _
    simp only [preprocess, padT, normalizeT]

theorem preprocess_crops_on_negative_pad_witness :
    (1024 < (Tensor3.mk 1025 1024 fun _ _ _ => 50).height ∨
      1024 < (Tensor3.mk 1025 1024 fun _ _ _ => 50).width) ∧
    ((preprocess (Tensor3.mk 1025 1024 fun _ _ _ => 50) 1024).height = 1024 ∧
     (preprocess (Tensor3.mk 1025 1024 fun _ _ _ => 50) 1024).width = 1024 ∧
     (∀ c i j, i < 1024 → j < 1024 →
       (preprocess (Tensor3.mk 1025 1024 fun _ _ _ => 50) 1024).data c i j =
         if i < (Tensor3.mk 1025 1024 fun (_ : Fin 3) (_ _ : Nat) => (50 : ℚ)).height ∧
             j < (Tensor3.mk 1025 1024 fun _ _ _ => 50).width then
           ((Tensor3.mk 1025 1024 fun _ _ _ => 50).data c i j - pixelMean c) /
             pixelStd c
         else 0)) :=
  ⟨Or.inl (by decide),
    preprocess_crops_on_negative_pad (Tensor3.mk 1025 1024 fun _ _ _ => 50)
      1024 (Or.inl (by decide))⟩

/-- C8: a discovered pair whose image path is missing at processing time
yields a logged skip, while the loop still visits every pair: the outcome
list covers the whole pair list, the missing pair's entry is the logged
skip, and every pair whose image exists is processed normally — the run is
not aborted. -/
theorem runAll_skips_missing (fsExists : String → Bool)
    (masksOf : String → List PredMask) (promptNumber : ℤ)
    (pairs : List (String × String)) (i : Nat) (hi : i < pairs.length)
    (hmiss : fsExists pairs[i].1 = false) :
    (runAll fsExists masksOf promptNumber pairs).length = pairs.length ∧
    (runAll fsExists masksOf promptNumber pairs)[i]? =
      some (pairs[i],
        .skippedMissing ("File not found in " ++ pairs[i].1)) ∧
    (∀ j (hj : j < pairs.length), fsExists pairs[j].1 = true →
      (runAll fsExists masksOf promptNumber pairs)[j]? =
        some (pairs[j],
          .processed (writtenArtifacts pairs[j].2 promptNumber
            (masksOf pairs[j].1)))) := by
  refine ⟨by simp [runAll], ?_, ?_⟩
  · rw [runAll, List.getElem?_map, List.getElem?_eq_getElem hi]
    simp [processPair, hmiss]
  · intro j hj hex
    rw [runAll, List.getElem?_map, List.getElem?_eq_getElem hj]
    simp [processPair, hex]

theorem runAll_skips_missing_witness :
    0 < ([("imgA", "lblA"), ("imgB", "lblB")] : List (String × String)).length ∧
    (fun s => decide (s ≠ "imgA")) ("imgA", "lblA").1 = false ∧
    ((runAll (fun s => decide (s ≠ "imgA")) (fun _ => []) 1
        [("imgA", "lblA"), ("imgB", "lblB")]).length =
      ([("imgA", "lblA"), ("imgB", "lblB")] : List (String × String)).length ∧
     (runAll (fun s => decide (s ≠ "imgA")) (fun _ => []) 1
        [("imgA", "lblA"), ("imgB", "lblB")])[0]? =
      some (("imgA", "lblA"),
        .skippedMissing ("File not found in " ++ "imgA")) ∧
     (∀ j (hj : j < ([("imgA", "lblA"), ("imgB", "lblB")] :
          List (String × String)).length),
       (fun s => decide (s ≠ "imgA"))
           ([("imgA", "lblA"), ("imgB", "lblB")][j]).1 = true →
       (runAll (fun s => decide (s ≠ "imgA")) (fun _ => []) 1
          [("imgA", "lblA"), ("imgB", "lblB")])[j]? =
        some ([("imgA", "lblA"), ("imgB", "lblB")][j],
          .processed (writtenArtifacts
            ([("imgA", "lblA"), ("imgB", "lblB")][j]).2 1
            ((fun _ => []) ([("imgA", "lblA"), ("imgB", "lblB")][j]).1))))) :=
  ⟨by decide, by decide,
    runAll_skips_missing (fun s => decide (s ≠ "imgA")) (fun _ => []) 1
      [("imgA", "lblA"), ("imgB", "lblB")] 0 (by decide) (by decide)⟩

/-- C9: the conversation builder prepends the image-placeholder token and
a newline to the instruction; with the wrapper flag set, the bare
placeholder is replaced by the start-marker, placeholder, end-marker
sequence — for an instruction free of the placeholder, the single bare
occurrence at the front is wrapped and the rest of the string unchanged. -/
theorem buildUserTurn_wraps (instruction : String)
    (hfree : containsSub DEFAULT_IMAGE_TOKEN.data instruction.data = false) :
    buildUserTurn instruction false =
      DEFAULT_IMAGE_TOKEN ++ "\n" ++ instruction ∧
    buildUserTurn instruction true =
      DEFAULT_IM_START_TOKEN ++ DEFAULT_IMAGE_TOKEN ++ DEFAULT_IM_END_TOKEN ++
        "\n" ++ instruction := by
  have himg : DEFAULT_IMAGE_TOKEN.data = ['<', 'i', 'm', 'a', 'g', 'e', '>'] :=
    rfl
  have hne : DEFAULT_IMAGE_TOKEN.data ≠ [] := by rw [himg]; decide
  have hnp :
      DEFAULT_IMAGE_TOKEN.data.isPrefixOf ('\n' :: instruction.data) = false :=
    rfl
  have hnc : containsSub DEFAULT_IMAGE_TOKEN.data ('\n' :: instruction.data) =
      false := by
    show (DEFAULT_IMAGE_TOKEN.data.isPrefixOf ('\n' :: instruction.data) ||
      containsSub DEFAULT_IMAGE_TOKEN.data instruction.data) = false
    rw [hnp, hfree]
    rfl
  refine ⟨rfl, ?_⟩
  show pyReplace (DEFAULT_IMAGE_TOKEN ++ "\n" ++ instruction)
    DEFAULT_IMAGE_TOKEN
    (DEFAULT_IM_START_TOKEN ++ DEFAULT_IMAGE_TOKEN ++ DEFAULT_IM_END_TOKEN) = _
  rw [pyReplace]
  have hdata : (DEFAULT_IMAGE_TOKEN ++ "\n" ++ instruction).data =
      DEFAULT_IMAGE_TOKEN.data ++ ('\n' :: instruction.data) := by
    simp [String.data_append]
  rw [hdata, replaceAll_pat_append _ _ hne,
    replaceAll_of_not_contains _ _ hne _ hnc]
  exact congrArg String.mk rfl

theorem buildUserTurn_wraps_witness :
    containsSub DEFAULT_IMAGE_TOKEN.data PROMPT3.data = false ∧
    (buildUserTurn PROMPT3 false = DEFAULT_IMAGE_TOKEN ++ "\n" ++ PROMPT3 ∧
     buildUserTurn PROMPT3 true =
       DEFAULT_IM_START_TOKEN ++ DEFAULT_IMAGE_TOKEN ++ DEFAULT_IM_END_TOKEN ++
         "\n" ++ PROMPT3) :=
  ⟨by decide, buildUserTurn_wraps PROMPT3 (by decide)⟩

/-- C10: the images-to-labels mapping of pair discovery is a global
substring replacement, not a single-segment substitution: in a clip path
`a ++ "/images/" ++ b ++ "/images/" ++ c` with no further occurrence
starting inside `a`, `b` or `c`, both the dataset-level `"/images/"` and
the one higher up in the root become `"/labels/"`. -/
theorem labelClipPath_replaces_globally (a b c : List Char)
    (ha : noStartIn "/images/".data a
      ("/images/".data ++ b ++ "/images/".data ++ c) = true)
    (hb : noStartIn "/images/".data b ("/images/".data ++ c) = true)
    (hc : containsSub "/images/".data c = false) :
    labelClipPath (String.mk (a ++ "/images/".data ++ b ++
        "/images/".data ++ c)) =
      String.mk (a ++ "/labels/".data ++ b ++ "/labels/".data ++ c) := by
  have hne : ("/images/" : String).data ≠ [] := by decide
  show String.mk (replaceAll "/images/".data "/labels/".data
    (String.mk (a ++ "/images/".data ++ b ++ "/images/".data ++ c)).data) = _
  apply congrArg String.mk
  show replaceAll "/images/".data "/labels/".data
    (a ++ "/images/".data ++ b ++ "/images/".data ++ c) = _
  simp only [List.append_assoc] at ha hb ⊢
  rw [replaceAll_append_of_noStartIn _ _ hne a _ ha,
    replaceAll_pat_append _ _ hne,
    replaceAll_append_of_noStartIn _ _ hne b _ hb,
    replaceAll_pat_append _ _ hne,
    replaceAll_of_not_contains _ _ hne c hc]

theorem labelClipPath_replaces_globally_witness :
    noStartIn "/images/".data "/myroot".data
      ("/images/".data ++ "data".data ++ "/images/".data ++
        "clip01".data) = true ∧
    noStartIn "/images/".data "data".data
      ("/images/".data ++ "clip01".data) = true ∧
    containsSub "/images/".data "clip01".data = false ∧
    labelClipPath (String.mk ("/myroot".data ++ "/images/".data ++
        "data".data ++ "/images/".data ++ "clip01".data)) =
      String.mk ("/myroot".data ++ "/labels/".data ++ "data".data ++
        "/labels/".data ++ "clip01".data) :=
  ⟨by decide, by decide, by decide,
    labelClipPath_replaces_globally "/myroot".data "data".data "clip01".data
      (by decide) (by decide) (by decide)⟩

theorem writeLoop_eq_enumFrom (lblPath : String) (promptNumber : ℤ) :
    ∀ (n : Nat) (masks : List PredMask),
      writeLoop lblPath promptNumber n masks =
        (List.enumFrom n masks).flatMap fun im =>
          if im.2.dim0 = 0 then []
          else [maskSavePath lblPath im.1 promptNumber,
            maskedImgSavePath lblPath im.1 promptNumber] := by
  intro n masks
  induction masks generalizing n with
  | nil => rfl
  | cons m ms ih =>
    show (if m.dim0 = 0 then [] else
        [maskSavePath lblPath n promptNumber,
          maskedImgSavePath lblPath n promptNumber]) ++
        writeLoop lblPath promptNumber (n + 1) ms = _
    rw [List.enumFrom_cons, List.flatMap_cons, ih (n + 1)]

/-- C1 (amended): the artifact paths written for a sample are exactly, in
order, two per non-empty predicted mask — the binary mask path and the
overlay path for that mask's original zero-based index in the result list,
with empty entries skipped but never renumbering later indices — where the
path base is the label filename truncated at its first dot. -/
theorem writtenArtifacts_eq_specArtifacts (lblPath : String)
    (promptNumber : ℤ) (masks : List PredMask) :
    writtenArtifacts lblPath promptNumber masks =
      specArtifacts lblPath promptNumber masks := by
  rw [writtenArtifacts, specArtifacts, writeLoop_eq_enumFrom, List.enum]

/-- C1, claim as stated refuted: for the label `d/a.b.png` the claim's
`label_base_name` — the filename without its extension, `a.b` — does not
appear in the written artifact paths; the code truncates at the first dot
and writes `d/a_LISA_mask_0_prompt1.png` and
`d/a_LISA_masked_img_0_prompt1.png` instead. -/
theorem writtenArtifacts_basename_counterexample :
    writtenArtifacts "d/a.b.png" 1 [PredMask.mk 1 1 1 fun _ _ => 1] =
      ["d/a_LISA_mask_0_prompt1.png", "d/a_LISA_masked_img_0_prompt1.png"] ∧
    String.mk (specStripExt "a.b.png".data) = "a.b" ∧
    ("d/" ++ "a.b" ++ "_LISA_mask_0_prompt1.png") ∉
      writtenArtifacts "d/a.b.png" 1 [PredMask.mk 1 1 1 fun _ _ => 1] := by
  refine ⟨?_, by decide, ?_⟩ <;> decide

/-- C7 (amended): within a matched timestamp, a pair is materialized for a
listed frame file exactly when the label file computed by replacing every
occurrence of the substring `.jpeg` with `.png` in the filename exists
under the labels timestamp directory. -/
theorem framePairs_mem (fsExists : String → Bool) (its lts : String)
    (files : List String) (pr : String × String) :
    pr ∈ framePairs fsExists its lts files ↔
      ∃ f ∈ files, fsExists (lts ++ "/" ++ labelFileName f) = true ∧
        pr = (its ++ "/" ++ f, lts ++ "/" ++ labelFileName f) := by
  rw [framePairs, List.mem_flatMap]
  constructor
  · rintro ⟨f, hf, hmem⟩
    by_cases hc : fsExists (lts ++ "/" ++ labelFileName f) = true
    · rw [if_pos hc] at hmem
      exact ⟨f, hf, hc, (List.mem_singleton.mp hmem)⟩
    · rw [if_neg hc] at hmem
      exact absurd hmem (List.not_mem_nil pr)
  · rintro ⟨f, hf, hc, rfl⟩
    exact ⟨f, hf, by rw [if_pos hc]; exact List.mem_singleton.mpr rfl⟩

/-- C7, claim as stated refuted: for the frame file `a.jpeg.txt` the code
computes the label name by a global replace, `a.png.txt`, and materializes
the pair when that file exists — even though the claim's label name, the
filename with a `.jpeg` extension replaced (here unchanged, `a.jpeg.txt`),
does not exist. -/
theorem framePairs_ext_counterexample :
    labelFileName "a.jpeg.txt" = "a.png.txt" ∧
    specLabelFileName "a.jpeg.txt" = "a.jpeg.txt" ∧
    framePairs (fun s => decide (s = "l/a.png.txt")) "i" "l" ["a.jpeg.txt"] =
      [("i/a.jpeg.txt", "l/a.png.txt")] ∧
    (fun s => decide (s = "l/a.png.txt"))
      ("l" ++ "/" ++ specLabelFileName "a.jpeg.txt") = false := by
  refine ⟨?_, ?_, ?_, ?_⟩ <;> decide

end LISA
